import Mathlib

/-!
Verification of the Entity Resolution & Cross-Reference Pipeline of the
epstein-db repository.  The definitions below are shallow embeddings of the
TypeScript / SQL source:

* `upsertEntity`       — `src/extraction/src/db.ts`, `upsertEntity` (lines 100-125),
                          over the `entities` table of the schema
                          (`UNIQUE(canonical_name, entity_type)`).
* `saveMatches`        — cross-reference script, `saveMatches`
                          (`INSERT ... ON CONFLICT DO NOTHING` against
                          `entity_crossref_matches`, whose only unique
                          constraint is the serial primary key `id`).
* `calculateEntityLayers` — `src/extraction/src/db.ts` (lines 176-214), three
                          successive SQL `UPDATE` passes.
* `getDocumentsPendingAnalysis` — `src/extraction/src/db.ts` (lines 83-97).
* `statusTrace`        — the sequence of `analysis_status` writes performed by
                          `processDocument` in
                          `src/extraction/src/scripts/extract-entities.ts`.
* JSON parsing / schema validation — `extractFromDocument` in the NER
                          extractor (zod `DocumentAnalysisSchema`).
-/

set_option maxRecDepth 4000

namespace EpsteinDB

/-- A row of the `entities` table (schema: `CREATE TABLE entities`).
`layer` is `NULL` (`none`) until the layer classifier assigns it; a freshly
inserted entity always has `layer = none` because `upsertEntity` never
writes the `layer` column. -/
structure EntityRow where
  id : Nat
  canonical_name : String
  entity_type : String
  aliases : List String
  description : Option String
  layer : Option Nat
deriving DecidableEq

/-- The `entities` table: rows plus the next value of the `SERIAL` id. -/
structure EntitiesTable where
  rows : List EntityRow
  nextId : Nat
deriving DecidableEq

/-- Does a row have the given `(canonical_name, entity_type)` pair?
This is the conflict target `ON CONFLICT (canonical_name, entity_type)`. -/
def matchesPair (n t : String) (r : EntityRow) : Bool :=
  r.canonical_name == n && r.entity_type == t

/-- Arguments of `upsertEntity` (db.ts lines 100-105):
`{canonicalName, entityType, aliases?, description?}`; a missing `aliases`
is serialized as `[]`. -/
structure UpsertEntityArgs where
  canonicalName : String
  entityType : String
  aliases : List String
  description : Option String
deriving DecidableEq

/-- `upsertEntity` (db.ts lines 100-125):
`INSERT INTO entities ... ON CONFLICT (canonical_name, entity_type)
DO UPDATE SET aliases = COALESCE(entities.aliases || EXCLUDED.aliases, ...)
RETURNING id`.
The whole statement is a single atomic insert-or-update; on conflict the
existing row keeps its id and merges the alias list, otherwise a fresh row
is inserted with the next serial id.  The returned value is the id of the
row that now holds the pair. -/
def upsertEntity (a : UpsertEntityArgs) (s : EntitiesTable) : Nat × EntitiesTable :=
  match s.rows.find? (matchesPair a.canonicalName a.entityType) with
  | some r =>
      (r.id,
       { s with rows := s.rows.map (fun x =>
           if matchesPair a.canonicalName a.entityType x then
             { x with aliases := x.aliases ++ a.aliases }
           else x) })
  | none =>
      (s.nextId,
       { rows := s.rows ++ [⟨s.nextId, a.canonicalName, a.entityType, a.aliases,
                             a.description, none⟩],
         nextId := s.nextId + 1 })

/-- Run a sequence of `upsertEntity` calls (the serialized order of any
interleaving of concurrent calls: each `ON CONFLICT` statement is atomic in
PostgreSQL, so a concurrent history is equivalent to some sequential one).
Returns the final table and the list of `(call, returned id)` pairs. -/
def runUpserts : List UpsertEntityArgs → EntitiesTable → EntitiesTable × List (UpsertEntityArgs × Nat)
  | [], s => (s, [])
  | a :: rest, s =>
      let p := upsertEntity a s
      let q := runUpserts rest p.2
      (q.1, (a, p.1) :: q.2)

/-- The schema's uniqueness invariant `UNIQUE(canonical_name, entity_type)`:
at most one row per pair. -/
def Uniq (s : EntitiesTable) : Prop :=
  ∀ n t, (s.rows.filter (matchesPair n t)).length ≤ 1

/-- The empty `entities` table. -/
def emptyEntities : EntitiesTable := ⟨[], 1⟩

/-! ### Cross-reference matches (cross-reference script + schema) -/

/-- The `Match` record produced by `findPPPMatches` / `findFECMatches` /
`findGrantsMatches` in the cross-reference script. -/
structure MatchRec where
  entityId : Nat
  source : String
  sourceId : Nat
  score : ℚ
deriving DecidableEq

/-- A row of `entity_crossref_matches` (schema lines 270-288).  The table
declares a `SERIAL PRIMARY KEY id` and two plain (non-unique) indexes;
no unique constraint exists on `(entity_id, source, source_id)`. -/
structure CrossRefRow where
  id : Nat
  entity_id : Nat
  source : String
  source_id : Nat
  match_score : ℚ
  match_method : String
deriving DecidableEq

structure CrossRefTable where
  rows : List CrossRefRow
  nextId : Nat
deriving DecidableEq

/-- Does inserting a row with this fresh serial id violate any unique
constraint of `entity_crossref_matches`?  The only unique constraint in the
schema is the primary key `id`, so this is the only check
`ON CONFLICT DO NOTHING` can ever act on. -/
def crossRefConflict (t : CrossRefTable) (newId : Nat) : Bool :=
  t.rows.any (fun r => r.id == newId)

/-- `saveMatches` (cross-reference script lines 329-341):
`INSERT INTO entity_crossref_matches (entity_id, source, source_id,
match_score, match_method) VALUES ... ON CONFLICT DO NOTHING`, one tuple per
match, method tag `'fuzzy'`.  Because the table has no unique constraint on
`(entity_id, source, source_id)`, the conflict clause only guards the serial
primary key, which is always fresh. -/
def saveMatches (ms : List MatchRec) (t : CrossRefTable) : CrossRefTable :=
  ms.foldl (fun acc m =>
    if crossRefConflict acc acc.nextId then acc
    else { rows := acc.rows ++ [⟨acc.nextId, m.entityId, m.source, m.sourceId,
                                 m.score, "fuzzy"⟩],
           nextId := acc.nextId + 1 }) t

/-- Number of match rows for a given (entity, source kind, source record id)
key — the spec's uniqueness invariant says this is at most 1. -/
def crossRefCount (t : CrossRefTable) (e : Nat) (src : String) (sid : Nat) : Nat :=
  (t.rows.filter (fun r => r.entity_id == e && r.source == src && r.source_id == sid)).length

/-- The empty `entity_crossref_matches` table. -/
def emptyCrossRef : CrossRefTable := ⟨[], 1⟩

/-- A concrete match produced twice by two successive matcher runs on
unchanged data (same entity, same PPP loan record, same score). -/
def pppMatchExample : MatchRec := ⟨1, "ppp", 42, (7 : ℚ) / 10⟩

/-! ### Documents and the pending fetch (db.ts lines 83-97) -/

/-- A row of the `documents` table, restricted to the columns the pending
fetch touches.  `full_text` is nullable (`TEXT`), `analysis_status` is one of
'pending', 'processing', 'complete', 'failed'. -/
structure DocRow where
  id : Nat
  doc_id : String
  analysis_status : String
  full_text : Option String
deriving DecidableEq

/-- `getDocumentsPendingAnalysis` (db.ts lines 83-97):
`SELECT id, doc_id, full_text FROM documents
 WHERE analysis_status = 'pending' AND full_text IS NOT NULL LIMIT $1`.
The filter requires the status to be exactly `'pending'` (a `'processing'`
row is not selected) and the text to be non-NULL (an empty string is
non-NULL and passes). -/
def getDocumentsPendingAnalysis (limit : Nat) (docs : List DocRow) : List DocRow :=
  (docs.filter (fun d => d.analysis_status == "pending" && d.full_text.isSome)).take limit

/-- A document left in `processing` by a crashed prior run. -/
def crashedDoc : DocRow := ⟨1, "EFTA00000001", "processing", some "orphaned text"⟩

/-- A pending document whose OCR text is the empty string (non-NULL). -/
def emptyTextDoc : DocRow := ⟨1, "EFTA00000002", "pending", some ""⟩

/-- A well-formed pending document. -/
def pendingDoc : DocRow := ⟨2, "EFTA00000003", "pending", some "Flight log, 1995."⟩

/-! ### Status transitions of `processDocument`
(extract-entities.ts lines 30-156) -/

/-- The sequence of `analysis_status` values written for one document by
`processDocument`, as a function of the run's outcome:

* the first statement always sets `'processing'` (line 39);
* if `extractFromDocument` throws, the `catch` sets `'failed'` (line 147);
* otherwise `updateDocumentAnalysis` runs (db.ts 48-81) — a single `UPDATE`
  that atomically writes the summary fields together with
  `analysis_status = 'complete'`.  `failAt = some 0` models that statement
  itself throwing (so `'complete'` is never written, the catch sets
  `'failed'`);
* after completion the loop performs `postPersistOps` further persistence
  calls (`upsertEntity`, `linkEntityToDocument`, `insertTriple`), any of
  which may throw: `failAt = some (k+1)` with `k < postPersistOps` models
  the (k+1)-th persistence call throwing, in which case the catch sets
  `'failed'` after `'complete'` was already written.

The status-update statements themselves are modelled as succeeding; the
claim is about which transitions the code performs. -/
def statusTrace (extractOk : Bool) (postPersistOps : Nat) (failAt : Option Nat) : List String :=
  "processing" ::
    (if extractOk then
      match failAt with
      | none => ["complete"]
      | some 0 => ["failed"]
      | some (k + 1) => if k < postPersistOps then ["complete", "failed"] else ["complete"]
    else ["failed"])

/-! ### Layer classification (db.ts lines 176-214) -/

/-- The root-entity selector of the first CTE:
`SELECT id FROM entities WHERE canonical_name = 'Jeffrey Epstein' AND
entity_type = 'person'` (the schema seeds this row with layer 0). -/
def isRootRow (e : EntityRow) : Bool :=
  e.canonical_name == "Jeffrey Epstein" && e.entity_type == "person"

/-- The state `calculateEntityLayers` operates on: the `entities` table rows
and the `document_entities` join rows `(document_id, entity_id)`. -/
structure GraphState where
  entities : List EntityRow
  document_entities : List (Nat × Nat)
deriving DecidableEq

/-- Do entities `a` and `b` share at least one document?  This is the
co-occurrence test the CTEs express by intersecting
`document_entities` on `document_id`. -/
def sharesDoc (de : List (Nat × Nat)) (a b : Nat) : Bool :=
  de.any (fun p => p.2 == a && de.any (fun q => q.1 == p.1 && q.2 == b))

/-- Row update of the first `UPDATE` (db.ts 178-192): set layer 1 on rows in
`layer1_entities` (share a document with the root, excluding the root
itself) whose layer is still NULL. -/
def upd1 (de : List (Nat × Nat)) (rootId : Nat) (e : EntityRow) : EntityRow :=
  if e.layer = none ∧ e.id ≠ rootId ∧ sharesDoc de e.id rootId = true then
    { e with layer := some 1 }
  else e

/-- First pass.  The scalar subquery `(SELECT id FROM epstein)` yields the
unique root row (unique by the table constraint); if no root row exists the
`IN`/`!=` comparisons against NULL select nothing and the UPDATE is a
no-op. -/
def pass1 (s : GraphState) : GraphState :=
  match s.entities.find? isRootRow with
  | none => s
  | some root =>
      { s with entities := s.entities.map (upd1 s.document_entities root.id) }

/-- `SELECT id FROM entities WHERE layer = 1` (the `layer1` CTE). -/
def layer1Ids (es : List EntityRow) : List Nat :=
  (es.filter (fun e => e.layer == some 1)).map (fun e => e.id)

/-- Row update of the second `UPDATE` (db.ts 194-208): set layer 2 on rows
sharing a document with a layer-1 entity, whose layer is still NULL. -/
def upd2 (de : List (Nat × Nat)) (l1 : List Nat) (e : EntityRow) : EntityRow :=
  if e.layer = none ∧ (l1.any (fun i => sharesDoc de e.id i)) = true then
    { e with layer := some 2 }
  else e

def pass2 (s : GraphState) : GraphState :=
  { s with entities :=
      s.entities.map (upd2 s.document_entities (layer1Ids s.entities)) }

/-- Row update of the third `UPDATE` (db.ts 210-213):
`UPDATE entities SET layer = 3 WHERE layer IS NULL`. -/
def upd3 (e : EntityRow) : EntityRow :=
  if e.layer = none then { e with layer := some 3 } else e

def pass3 (s : GraphState) : GraphState :=
  { s with entities := s.entities.map upd3 }

/-- `calculateEntityLayers` (db.ts lines 176-214): the three successive
`UPDATE` statements. -/
def calculateEntityLayers (s : GraphState) : GraphState :=
  pass3 (pass2 (pass1 s))

/-- The seeded root entity (schema lines 395-403), layer 0. -/
def rootEntity : EntityRow := ⟨0, "Jeffrey Epstein", "person", [], none, some 0⟩

def entA : EntityRow := ⟨1, "Alice Adams", "person", [], none, none⟩

def entB : EntityRow := ⟨2, "Bob Brown", "person", [], none, none⟩

def entC : EntityRow := ⟨3, "Carol Clark", "person", [], none, none⟩

/-- The spec's layer scenario: `A` co-occurs with the root (document 10),
`B` co-occurs with `A` only (document 11), `C` is isolated. -/
def exGraph : GraphState :=
  ⟨[rootEntity, entA, entB, entC], [(10, 0), (10, 1), (11, 1), (11, 2)]⟩

/-! ### Truncation before extraction (`extractFromDocument`, lines 111-115) -/

/-- `const maxChars = 100000`. -/
def maxExtractionChars : Nat := 100000

/-- The marker appended when a document is truncated. -/
def truncationMarker : String := "\n\n[TRUNCATED - document continues...]"

/-- `text.length > maxChars ? text.slice(0, maxChars) + marker : text`. -/
def truncateForExtraction (text : String) : String :=
  if maxExtractionChars < text.length then
    text.take maxExtractionChars ++ truncationMarker
  else text

/-- Does a string carry the truncation marker (as produced by the
truncation path, which appends it at the end)? -/
def endsWithMarker (s : String) : Bool :=
  truncationMarker.data.isSuffixOf s.data

/-! ### LLM response parsing and schema validation
(`extractFromDocument`, extractor lines 129-152, and the zod schemas) -/

def braceOpen : Char := Char.ofNat 123

def braceClose : Char := Char.ofNat 125

/-- Index of the last occurrence of `c` in `cs`. -/
def lastIdxOf (cs : List Char) (c : Char) : Option Nat :=
  match cs.reverse.findIdx? (· == c) with
  | none => none
  | some r => some (cs.length - 1 - r)

/-- `content.text.match(/\x7b[\s\S]*\x7d/)`: the greedy regex matches from
the first opening brace that has a closing brace after it, through the
last closing brace of the whole text; `null` when no such span exists. -/
def jsonMatch (s : String) : Option String :=
  match lastIdxOf s.data braceClose with
  | none => none
  | some j =>
      match (s.data.take j).findIdx? (· == braceOpen) with
      | none => none
      | some i => some (String.mk ((s.data.drop i).take (j - i + 1)))

/-- JSON values as produced by `JSON.parse` (numbers kept as their source
text; the extraction schema never reads numeric values). -/
inductive Json where
  | null : Json
  | bool : Bool → Json
  | num : String → Json
  | str : String → Json
  | arr : List Json → Json
  | obj : List (String × Json) → Json

/-- Skip JSON whitespace. -/
def skipWs : List Char → List Char
  | [] => []
  | c :: r =>
      if c = ' ' ∨ c = '\t' ∨ c = '\n' ∨ c = '\r' then skipWs r else c :: r

def hexVal (c : Char) : Option Nat :=
  if 48 ≤ c.toNat ∧ c.toNat ≤ 57 then some (c.toNat - 48)
  else if 97 ≤ c.toNat ∧ c.toNat ≤ 102 then some (c.toNat - 97 + 10)
  else if 65 ≤ c.toNat ∧ c.toNat ≤ 70 then some (c.toNat - 65 + 10)
  else none

def escChar (c : Char) : Option Char :=
  if c = '"' then some '"'
  else if c = '\\' then some '\\'
  else if c = '/' then some '/'
  else if c = 'b' then some (Char.ofNat 8)
  else if c = 'f' then some (Char.ofNat 12)
  else if c = 'n' then some '\n'
  else if c = 'r' then some '\r'
  else if c = 't' then some '\t'
  else none

/-- Body of a JSON string after the opening quote: returns the decoded
characters and the remainder after the closing quote.  Control characters
and invalid escapes are rejected, as `JSON.parse` does. -/
def parseStringBody : List Char → Option (List Char × List Char)
  | [] => none
  | c :: rest =>
      if c = '"' then some ([], rest)
      else if c = '\\' then
        match rest with
        | 'u' :: h1 :: h2 :: h3 :: h4 :: rest2 =>
            (match hexVal h1, hexVal h2, hexVal h3, hexVal h4 with
             | some a, some b, some c2, some d =>
                 (parseStringBody rest2).map (fun p =>
                   (Char.ofNat (((a * 16 + b) * 16 + c2) * 16 + d) :: p.1, p.2))
             | _, _, _, _ => none)
        | e :: rest2 =>
            (match escChar e with
             | some c2 => (parseStringBody rest2).map (fun p => (c2 :: p.1, p.2))
             | none => none)
        | [] => none
      else if c.toNat < 32 then none
      else (parseStringBody rest).map (fun p => (c :: p.1, p.2))

/-- Optional fraction part of a JSON number. -/
def parseFrac (cs : List Char) : Option (List Char × List Char) :=
  match cs with
  | '.' :: r =>
      let p : List Char × List Char := r.span (fun c => c.isDigit)
      if p.1 = [] then none else some ('.' :: p.1, p.2)
  | _ => some ([], cs)

/-- Optional exponent part of a JSON number. -/
def parseExp (cs : List Char) : Option (List Char × List Char) :=
  match cs with
  | c :: r =>
      if c = 'e' ∨ c = 'E' then
        let q := match r with
          | '+' :: r2 => ((['+'] : List Char), r2)
          | '-' :: r2 => ((['-'] : List Char), r2)
          | _ => ([], r)
        let p : List Char × List Char := q.2.span (fun x => x.isDigit)
        if p.1 = [] then none else some (c :: (q.1 ++ p.1), p.2)
      else some ([], cs)
  | [] => some ([], [])

/-- A JSON number (kept as text): optional minus, integer part without
leading zeros, optional fraction and exponent. -/
def parseNumber (cs : List Char) : Option (String × List Char) :=
  let q := match cs with
    | '-' :: r => ((['-'] : List Char), r)
    | _ => ([], cs)
  let p : List Char × List Char := q.2.span (fun c => c.isDigit)
  if p.1 = [] then none
  else if p.1.head? = some '0' ∧ 1 < p.1.length then none
  else
    match parseFrac p.2 with
    | none => none
    | some (fr, cs3) =>
        match parseExp cs3 with
        | none => none
        | some (ex, cs4) => some (String.mk (q.1 ++ p.1 ++ fr ++ ex), cs4)

mutual

/-- Recursive-descent JSON value parser (the fuel bounds nesting and is
always sufficient for the inputs fed by `parseJsonText`). -/
def parseVal : Nat → List Char → Option (Json × List Char)
  | 0, _ => none
  | fuel + 1, cs =>
      match skipWs cs with
      | 'n' :: 'u' :: 'l' :: 'l' :: rest => some (Json.null, rest)
      | 't' :: 'r' :: 'u' :: 'e' :: rest => some (Json.bool true, rest)
      | 'f' :: 'a' :: 'l' :: 's' :: 'e' :: rest => some (Json.bool false, rest)
      | '"' :: rest =>
          (parseStringBody rest).map (fun p => (Json.str (String.mk p.1), p.2))
      | '[' :: rest =>
          (match skipWs rest with
           | ']' :: r2 => some (Json.arr [], r2)
           | _ =>
               (parseArrItems fuel (skipWs rest)).map
                 (fun p => (Json.arr p.1, p.2)))
      | c :: rest =>
          if c = braceOpen then
            match skipWs rest with
            | c2 :: r2 =>
                if c2 = braceClose then some (Json.obj [], r2)
                else
                  (parseObjItems fuel (skipWs rest)).map
                    (fun p => (Json.obj p.1, p.2))
            | [] => none
          else
            (parseNumber (c :: rest)).map (fun p => (Json.num p.1, p.2))
      | [] => none

/-- One-or-more comma-separated array items up to the closing bracket. -/
def parseArrItems : Nat → List Char → Option (List Json × List Char)
  | 0, _ => none
  | fuel + 1, cs =>
      match parseVal fuel cs with
      | none => none
      | some (j, r) =>
          match skipWs r with
          | ',' :: r2 =>
              (parseArrItems fuel r2).map (fun p => (j :: p.1, p.2))
          | ']' :: r2 => some ([j], r2)
          | _ => none

/-- One-or-more `"key": value` fields up to the closing brace. -/
def parseObjItems : Nat → List Char → Option (List (String × Json) × List Char)
  | 0, _ => none
  | fuel + 1, cs =>
      match skipWs cs with
      | '"' :: rest =>
          (match parseStringBody rest with
           | none => none
           | some (k, r) =>
               match skipWs r with
               | ':' :: r2 =>
                   (match parseVal fuel r2 with
                    | none => none
                    | some (v, r3) =>
                        match skipWs r3 with
                        | ',' :: r4 =>
                            (parseObjItems fuel r4).map
                              (fun p => ((String.mk k, v) :: p.1, p.2))
                        | c :: r4 =>
                            if c = braceClose then some ([(String.mk k, v)], r4)
                            else none
                        | [] => none)
               | _ => none)
      | _ => none

end

/-- `JSON.parse` model: parse one JSON value covering the whole input
(trailing whitespace allowed). -/
def parseJsonText (s : String) : Option Json :=
  match parseVal (s.length + 2) s.data with
  | some (j, rest) => if skipWs rest = [] then some j else none
  | none => none

/-! #### The zod schemas (extractor lines 14-46) -/

/-- `EntitySchema`: `{name: string, type: enum, context?: string}`. -/
structure Entity where
  name : String
  type : String
  context : Option String
deriving DecidableEq

/-- `TripleSchema`. -/
structure Triple where
  subject : String
  subjectType : String
  predicate : String
  object : String
  objectType : String
  location : Option String
  timestamp : Option String
  explicitTopic : Option String
  implicitTopic : Option String
  tags : Option (List String)
deriving DecidableEq

/-- `DocumentAnalysisSchema`: `dateEarliest`/`dateLatest` are
`.nullable()` (key required, null allowed). -/
structure DocumentAnalysis where
  summary : String
  detailedSummary : String
  documentType : String
  dateEarliest : Option String
  dateLatest : Option String
  contentTags : List String
  entities : List Entity
  triples : List Triple
deriving DecidableEq

/-- `z.enum([...])` of `EntitySchema.type` / `TripleSchema.objectType`. -/
def entityTypeNames : List String :=
  ["person", "organization", "location", "date", "reference", "financial"]

/-- `z.enum([...])` of `TripleSchema.subjectType`. -/
def subjectTypeNames : List String := ["person", "organization", "location"]

/-- Field lookup in a parsed JSON object.  `JSON.parse` resolves duplicate
keys to the last occurrence, hence the reverse search. -/
def getField (fs : List (String × Json)) (k : String) : Option Json :=
  match fs.reverse.find? (fun p => p.1 == k) with
  | some p => some p.2
  | none => none

def asStr : Json → Option String
  | Json.str s => some s
  | _ => none

def asStrOrNull : Json → Option (Option String)
  | Json.str s => some (some s)
  | Json.null => some none
  | _ => none

def asArr : Json → Option (List Json)
  | Json.arr xs => some xs
  | _ => none

/-- Required `z.string()` field. -/
def reqStr (fs : List (String × Json)) (k : String) : Option String :=
  (getField fs k).bind asStr

/-- Required `z.string().nullable()` field. -/
def reqStrNullable (fs : List (String × Json)) (k : String) : Option (Option String) :=
  (getField fs k).bind asStrOrNull

/-- `z.string().optional()` field: missing is fine, present must be a
string. -/
def optStr (fs : List (String × Json)) (k : String) : Option (Option String) :=
  match getField fs k with
  | none => some none
  | some j => (asStr j).map some

/-- `z.array(z.string())`. -/
def strList (j : Json) : Option (List String) :=
  (asArr j).bind (fun xs => xs.mapM asStr)

/-- `z.array(z.string()).optional()`. -/
def optStrList (fs : List (String × Json)) (k : String) : Option (Option (List String)) :=
  match getField fs k with
  | none => some none
  | some j => (strList j).map some

/-- Required `z.enum(allowed)` field. -/
def enumStr (allowed : List String) (fs : List (String × Json)) (k : String) :
    Option String :=
  (reqStr fs k).bind (fun s => if s ∈ allowed then some s else none)

/-- `EntitySchema.parse`. -/
def decodeEntity : Json → Option Entity
  | Json.obj fs => do
      let name ← reqStr fs "name"
      let ty ← enumStr entityTypeNames fs "type"
      let ctx ← optStr fs "context"
      pure ⟨name, ty, ctx⟩
  | _ => none

/-- `TripleSchema.parse`. -/
def decodeTriple : Json → Option Triple
  | Json.obj fs => do
      let subject ← reqStr fs "subject"
      let subjectType ← enumStr subjectTypeNames fs "subjectType"
      let predicate ← reqStr fs "predicate"
      let objName ← reqStr fs "object"
      let objectType ← enumStr entityTypeNames fs "objectType"
      let location ← optStr fs "location"
      let timestamp ← optStr fs "timestamp"
      let explicitTopic ← optStr fs "explicitTopic"
      let implicitTopic ← optStr fs "implicitTopic"
      let tags ← optStrList fs "tags"
      pure ⟨subject, subjectType, predicate, objName, objectType, location,
            timestamp, explicitTopic, implicitTopic, tags⟩
  | _ => none

/-- `DocumentAnalysisSchema.parse` (returns `none` where zod throws). -/
def decodeDocumentAnalysis : Json → Option DocumentAnalysis
  | Json.obj fs => do
      let summary ← reqStr fs "summary"
      let detailedSummary ← reqStr fs "detailedSummary"
      let documentType ← reqStr fs "documentType"
      let dateEarliest ← reqStrNullable fs "dateEarliest"
      let dateLatest ← reqStrNullable fs "dateLatest"
      let contentTags ← (getField fs "contentTags").bind strList
      let entsJ ← (getField fs "entities").bind asArr
      let ents ← entsJ.mapM decodeEntity
      let trsJ ← (getField fs "triples").bind asArr
      let trs ← trsJ.mapM decodeTriple
      pure ⟨summary, detailedSummary, documentType, dateEarliest, dateLatest,
            contentTags, ents, trs⟩
  | _ => none

/-- Error text when the regex finds no JSON span.  In the source the inner
`throw new Error('No JSON found in response')` is caught by the same
`catch` and rethrown as `JSON parse error: ${error}`. -/
def noJsonError : String := "JSON parse error: Error: No JSON found in response"

/-- Error text when `JSON.parse` throws. -/
def jsonSyntaxError : String := "JSON parse error: SyntaxError: Unexpected token"

/-- Error text when `DocumentAnalysisSchema.parse` throws (zod). -/
def zodError : String := "ZodError: response does not match the DocumentAnalysis schema"

/-- The response-handling tail of `extractFromDocument` (extractor lines
129-152): take the text content, locate a JSON span, `JSON.parse` it and
validate with `DocumentAnalysisSchema.parse`; each failure throws with a
distinguishable, non-empty message. -/
def parseExtractionResponse (text : String) : Except String DocumentAnalysis :=
  match jsonMatch text with
  | none => Except.error noJsonError
  | some jstr =>
      match parseJsonText jstr with
      | none => Except.error jsonSyntaxError
      | some j =>
          match decodeDocumentAnalysis j with
          | none => Except.error zodError
          | some a => Except.ok a

/-! ### Per-document processing (extract-entities.ts lines 30-156) -/

/-- Models the JS `entity.name.toLowerCase()` used as the key of
`entityIdMap` (ASCII lowering). -/
def lowerStr (s : String) : String := String.mk (s.data.map Char.toLower)

/-- The `entityIdMap : Map<string, number>` of `processDocument`, keyed by
lowercased entity name (the entity type is not part of the key). -/
abbrev EntityIdMap := List (String × Nat)

/-- `entityIdMap.get(k)`. -/
def mapGet (m : EntityIdMap) (k : String) : Option Nat :=
  match m.find? (fun p => p.1 == k) with
  | some p => some p.2
  | none => none

/-- `entityIdMap.set(k, v)`: overwrite an existing key or append. -/
def mapSet (m : EntityIdMap) (k : String) (v : Nat) : EntityIdMap :=
  if m.any (fun p => p.1 == k) then
    m.map (fun p => if p.1 == k then (k, v) else p)
  else m ++ [(k, v)]

/-- The entity loop (lines 68-77): for each extracted entity, upsert by
`(name, type)`, record the id under the lowercased name, and link it to the
document.  Returns the final table and map plus the upsert log and the
linked entity ids. -/
def processEntitiesPhase :
    EntitiesTable → EntityIdMap → List Entity →
      EntitiesTable × EntityIdMap × List UpsertEntityArgs × List Nat
  | db, m, [] => (db, m, [], [])
  | db, m, e :: rest =>
      let r := upsertEntity ⟨e.name, e.type, [], none⟩ db
      let q := processEntitiesPhase r.2 (mapSet m (lowerStr e.name) r.1) rest
      (q.1, q.2.1, ⟨e.name, e.type, [], none⟩ :: q.2.2.1, r.1 :: q.2.2.2)

/-- The get-or-create step used for a triple's subject, object and location
(lines 86-116): if the lowercased surface name is already in
`entityIdMap`, reuse that id (whatever the endpoint's declared type);
otherwise upsert a new entity of the declared type and record it. -/
def resolveEndpoint (db : EntitiesTable) (m : EntityIdMap) (name ty : String) :
    Nat × EntitiesTable × EntityIdMap × List UpsertEntityArgs :=
  match mapGet m (lowerStr name) with
  | some i => (i, db, m, [])
  | none =>
      let r := upsertEntity ⟨name, ty, [], none⟩ db
      (r.1, r.2, mapSet m (lowerStr name) r.1, [⟨name, ty, [], none⟩])

/-- The triple loop (lines 82-134): resolve subject, object and optional
location through `resolveEndpoint` (location entities receive the fixed
type `'location'`), then insert the triple.  Returns the final table and
map, the endpoint upsert log and the number of inserted triples. -/
def processTriplesPhase :
    EntitiesTable → EntityIdMap → List Triple →
      EntitiesTable × EntityIdMap × List UpsertEntityArgs × Nat
  | db, m, [] => (db, m, [], 0)
  | db, m, t :: rest =>
      let rs := resolveEndpoint db m t.subject t.subjectType
      let ro := resolveEndpoint rs.2.1 rs.2.2.1 t.object t.objectType
      let rl := match t.location with
        | some loc =>
            let r := resolveEndpoint ro.2.1 ro.2.2.1 loc "location"
            (r.2.1, r.2.2.1, r.2.2.2)
        | none => (ro.2.1, ro.2.2.1, ([] : List UpsertEntityArgs))
      let q := processTriplesPhase rl.1 rl.2.1 rest
      (q.1, q.2.1, rs.2.2.2 ++ ro.2.2.2 ++ rl.2.2 ++ q.2.2.1, q.2.2.2 + 1)

/-- Database writes attributable to one document's processing. -/
structure DocWrites where
  upserts : List UpsertEntityArgs
  links : List Nat
  triples : Nat
deriving DecidableEq

/-- Outcome of `processDocument` for one document. -/
structure ProcResult where
  status : String
  error_message : Option String
  writes : DocWrites
  table : EntitiesTable
deriving DecidableEq

/-- `processDocument` (lines 30-156) as a function of the LLM response
text: if response handling throws, the catch marks the document `failed`
with the error text and nothing is written; otherwise the analysis is
persisted, the document ends `complete`, and the entity and triple loops
run against the shared `entities` table. -/
def processDocumentModel (db : EntitiesTable) (respText : String) : ProcResult :=
  match parseExtractionResponse respText with
  | Except.error e =>
      { status := "failed", error_message := some e,
        writes := ⟨[], [], 0⟩, table := db }
  | Except.ok a =>
      let pe := processEntitiesPhase db [] a.entities
      let pt := processTriplesPhase pe.1 pe.2.1 a.triples
      { status := "complete", error_message := none,
        writes := ⟨pe.2.2.1 ++ pt.2.2.1, pe.2.2.2, pt.2.2.2⟩,
        table := pt.1 }

/-- A batch (`main`, lines 166-184): every document of the batch is
processed; a document's failure is caught inside `processDocument` and
does not abort the others. -/
def processBatchModel : EntitiesTable → List String → EntitiesTable × List ProcResult
  | db, [] => (db, [])
  | db, t :: ts =>
      let r := processDocumentModel db t
      let q := processBatchModel r.table ts
      (q.1, r :: q.2)

theorem list_length_le_one_mem {α : Type _} {l : List α} {a b : α}
    (h : l.length ≤ 1) (ha : a ∈ l) (hb : b ∈ l) : a = b := by
  match l with
  | [] => cases ha
  | [x] =>
      rw [List.mem_singleton] at ha hb
      rw [ha, hb]
  | x :: y :: rest => simp at h

theorem filter_map_length_eq {α : Type _} {p : α → Bool} {f : α → α}
    (hpf : ∀ x, p (f x) = p x) (l : List α) :
    ((l.map f).filter p).length = (l.filter p).length := by
  induction l with
  | nil => rfl
  | cons x xs ih =>
      simp only [List.map_cons, List.filter_cons, hpf x]
      cases p x <;> simp [ih]

theorem matchesPair_aliasUpdate (n t n' t' : String) (al : List String) (x : EntityRow) :
    matchesPair n' t'
      (if matchesPair n t x then { x with aliases := x.aliases ++ al } else x) =
    matchesPair n' t' x := by
  by_cases h : matchesPair n t x = true
  · rw [if_pos h]; rfl
  · rw [if_neg h]

theorem upsertEntity_preserves_uniq (a : UpsertEntityArgs) (s : EntitiesTable)
    (h : Uniq s) : Uniq (upsertEntity a s).2 := by
  intro n t
  unfold upsertEntity
  cases hf : s.rows.find? (matchesPair a.canonicalName a.entityType) with
  | some r =>
      simp only
      rw [filter_map_length_eq (fun x => matchesPair_aliasUpdate _ _ _ _ _ x)]
      exact h n t
  | none =>
      simp only [List.filter_append]
      have hnone : ∀ x ∈ s.rows, ¬ (matchesPair a.canonicalName a.entityType x = true) := by
        intro x hx
        have := List.find?_eq_none.mp hf x hx
        simpa using this
      by_cases hp : matchesPair n t
          ⟨s.nextId, a.canonicalName, a.entityType, a.aliases, a.description, none⟩ = true
      · -- the new row matches (n, t); then (n, t) = (a.canonicalName, a.entityType)
        have hn : a.canonicalName = n ∧ a.entityType = t := by
          simpa [matchesPair] using hp
        have hfilter : s.rows.filter (matchesPair n t) = [] := by
          rw [List.filter_eq_nil_iff]
          intro x hx
          rw [← hn.1, ← hn.2]
          exact hnone x hx
        simp [hfilter, hp]
      · simp only [Bool.not_eq_true] at hp
        simp [hp]
        exact h n t

theorem upsertEntity_returns_row (a : UpsertEntityArgs) (s : EntitiesTable) :
    ∃ r ∈ (upsertEntity a s).2.rows,
      r.canonical_name = a.canonicalName ∧ r.entity_type = a.entityType ∧
      r.id = (upsertEntity a s).1 := by
  unfold upsertEntity
  cases hf : s.rows.find? (matchesPair a.canonicalName a.entityType) with
  | some r =>
      have hmem : r ∈ s.rows := List.mem_of_find?_eq_some hf
      have hp : matchesPair a.canonicalName a.entityType r = true := List.find?_some hf
      have hr : r.canonical_name = a.canonicalName ∧ r.entity_type = a.entityType := by
        simpa [matchesPair] using hp
      refine ⟨{ r with aliases := r.aliases ++ a.aliases }, ?_, hr.1, hr.2, rfl⟩
      simp only [List.mem_map]
      exact ⟨r, hmem, by simp [hp]⟩
  | none =>
      exact ⟨⟨s.nextId, a.canonicalName, a.entityType, a.aliases, a.description, none⟩,
        by simp, rfl, rfl, rfl⟩

theorem upsertEntity_row_persists (a : UpsertEntityArgs) (s : EntitiesTable)
    (r : EntityRow) (hr : r ∈ s.rows) :
    ∃ r' ∈ (upsertEntity a s).2.rows,
      r'.id = r.id ∧ r'.canonical_name = r.canonical_name ∧
      r'.entity_type = r.entity_type := by
  unfold upsertEntity
  cases hf : s.rows.find? (matchesPair a.canonicalName a.entityType) with
  | some x =>
      refine ⟨if matchesPair a.canonicalName a.entityType r then
                { r with aliases := r.aliases ++ a.aliases } else r, ?_, ?_, ?_, ?_⟩
      · simp only [List.mem_map]
        exact ⟨r, hr, rfl⟩
      · by_cases h : matchesPair a.canonicalName a.entityType r = true <;> simp [h]
      · by_cases h : matchesPair a.canonicalName a.entityType r = true <;> simp [h]
      · by_cases h : matchesPair a.canonicalName a.entityType r = true <;> simp [h]
  | none =>
      exact ⟨r, by simp [hr], rfl, rfl, rfl⟩

theorem runUpserts_row_persists (calls : List UpsertEntityArgs) (s : EntitiesTable)
    (r : EntityRow) (hr : r ∈ s.rows) :
    ∃ r' ∈ (runUpserts calls s).1.rows,
      r'.id = r.id ∧ r'.canonical_name = r.canonical_name ∧
      r'.entity_type = r.entity_type := by
  induction calls generalizing s r with
  | nil => exact ⟨r, hr, rfl, rfl, rfl⟩
  | cons a rest ih =>
      obtain ⟨r1, hr1, hid, hname, htype⟩ := upsertEntity_row_persists a s r hr
      obtain ⟨r2, hr2, hid2, hname2, htype2⟩ := ih (upsertEntity a s).2 r1 hr1
      refine ⟨r2, ?_, by rw [hid2, hid], by rw [hname2, hname], by rw [htype2, htype]⟩
      simpa [runUpserts] using hr2

theorem runUpserts_uniq_and_returns (calls : List UpsertEntityArgs) (s : EntitiesTable)
    (h : Uniq s) :
    Uniq (runUpserts calls s).1 ∧
    ∀ pr ∈ (runUpserts calls s).2, ∃ r ∈ (runUpserts calls s).1.rows,
      r.canonical_name = pr.1.canonicalName ∧ r.entity_type = pr.1.entityType ∧
      r.id = pr.2 := by
  induction calls generalizing s with
  | nil => exact ⟨h, by intro pr hpr; cases hpr⟩
  | cons a rest ih =>
      have h1 : Uniq (upsertEntity a s).2 := upsertEntity_preserves_uniq a s h
      obtain ⟨hu, hrets⟩ := ih (upsertEntity a s).2 h1
      constructor
      · simpa [runUpserts] using hu
      · intro pr hpr
        simp only [runUpserts, List.mem_cons] at hpr
        cases hpr with
        | inl heq =>
            obtain ⟨r0, hr0, hn0, ht0, hi0⟩ := upsertEntity_returns_row a s
            obtain ⟨r', hr', hid', hname', htype'⟩ :=
              runUpserts_row_persists rest (upsertEntity a s).2 r0 hr0
            refine ⟨r', by simpa [runUpserts] using hr', ?_, ?_, ?_⟩
            · rw [heq]; rw [hname', hn0]
            · rw [heq]; rw [htype', ht0]
            · rw [heq]; rw [hid', hi0]
        | inr hmem =>
            obtain ⟨r, hr, hn, ht, hi⟩ := hrets pr hmem
            exact ⟨r, by simpa [runUpserts] using hr, hn, ht, hi⟩

/-- C1.  For every `(canonicalName, entityType)` pair, after any number of
`upsertEntity` calls in any serialized interleaving, starting from a table
satisfying the schema's uniqueness constraint: the final table still has at
most one row per pair, every call returns the id of a row carrying its
pair in the final table, and any two calls for the same pair return the same
id (N concurrent calls for the same new name resolve to exactly one id). -/
theorem upsertEntity_pair_unique (calls : List UpsertEntityArgs) (s : EntitiesTable)
    (h : Uniq s) :
    Uniq (runUpserts calls s).1 ∧
    (∀ pr ∈ (runUpserts calls s).2, ∃ r ∈ (runUpserts calls s).1.rows,
      r.canonical_name = pr.1.canonicalName ∧ r.entity_type = pr.1.entityType ∧
      r.id = pr.2) ∧
    (∀ p q, p ∈ (runUpserts calls s).2 → q ∈ (runUpserts calls s).2 →
      p.1.canonicalName = q.1.canonicalName → p.1.entityType = q.1.entityType →
      p.2 = q.2) := by
  obtain ⟨hu, hrets⟩ := runUpserts_uniq_and_returns calls s h
  refine ⟨hu, hrets, ?_⟩
  intro p q hp hq hname htype
  obtain ⟨rp, hrp, hnp, htp, hip⟩ := hrets p hp
  obtain ⟨rq, hrq, hnq, htq, hiq⟩ := hrets q hq
  have hple : ((runUpserts calls s).1.rows.filter
      (matchesPair p.1.canonicalName p.1.entityType)).length ≤ 1 :=
    hu p.1.canonicalName p.1.entityType
  have hmp : rp ∈ (runUpserts calls s).1.rows.filter
      (matchesPair p.1.canonicalName p.1.entityType) := by
    rw [List.mem_filter]
    exact ⟨hrp, by simp [matchesPair, hnp, htp]⟩
  have hmq : rq ∈ (runUpserts calls s).1.rows.filter
      (matchesPair p.1.canonicalName p.1.entityType) := by
    rw [List.mem_filter]
    refine ⟨hrq, ?_⟩
    simp [matchesPair, hnq, htq, hname, htype]
  have := list_length_le_one_mem hple hmp hmq
  rw [← hip, ← hiq, this]

/-- Witness for C1: three racing calls for the pair
`("J. Smith", person)` plus an unrelated call, starting from the empty
table: the invariant and single-id property hold concretely. -/
theorem upsertEntity_pair_unique_witness :
    Uniq (runUpserts
      [⟨"J. Smith", "person", [], none⟩,
       ⟨"Acme Corp", "organization", [], none⟩,
       ⟨"J. Smith", "person", ["John Smith"], none⟩,
       ⟨"J. Smith", "person", [], none⟩] emptyEntities).1 :=
  (upsertEntity_pair_unique
      [⟨"J. Smith", "person", [], none⟩,
       ⟨"Acme Corp", "organization", [], none⟩,
       ⟨"J. Smith", "person", ["John Smith"], none⟩,
       ⟨"J. Smith", "person", [], none⟩] emptyEntities
      (by intro n t; simp [emptyEntities])).1

/-- C2.  The claim says re-inserting an already-present
`(entity, source, record)` match via `saveMatches` is a no-op.  On the code
this fails: `entity_crossref_matches` has no unique constraint on
`(entity_id, source, source_id)`, so `ON CONFLICT DO NOTHING` never fires
and a second matcher run duplicates the row.  Running `saveMatches` twice
with the same match leaves two rows for the key `(1, 'ppp', 42)`. -/
theorem saveMatches_duplicates_row :
    crossRefCount (saveMatches [pppMatchExample]
      (saveMatches [pppMatchExample] emptyCrossRef)) 1 "ppp" 42 = 2 := by
  decide

/-- C4.  The claim says documents left in `processing` by a crashed run are
reclaimed by the pending-document fetch.  On the code this fails:
`getDocumentsPendingAnalysis` selects only `analysis_status = 'pending'`
rows and no code path ever resets `'processing'` back to `'pending'`, so a
crashed document is silently skipped forever. -/
theorem processing_never_reclaimed :
    getDocumentsPendingAnalysis 100 [crashedDoc] = [] := by
  decide

/-- C9 counterexample.  The claim says every document returned by the
pending fetch has a non-empty text.  The SQL condition is
`full_text IS NOT NULL`, which an empty string satisfies: a pending row
with `full_text = ''` is returned. -/
theorem pending_fetch_empty_text_cex :
    emptyTextDoc ∈ getDocumentsPendingAnalysis 100 [emptyTextDoc] ∧
    emptyTextDoc.full_text = some "" := by
  decide

/-- C9 (amended).  Every document returned by
`getDocumentsPendingAnalysis` has `analysis_status = 'pending'` and a
non-NULL (though possibly empty) text, and the batch is bounded by the
limit. -/
theorem pending_fetch_sound (limit : Nat) (docs : List DocRow) (d : DocRow)
    (h : d ∈ getDocumentsPendingAnalysis limit docs) :
    d.analysis_status = "pending" ∧ d.full_text ≠ none ∧
    (getDocumentsPendingAnalysis limit docs).length ≤ limit := by
  refine ⟨?_, ?_, ?_⟩
  · have hm := List.mem_of_mem_take h
    have := (List.mem_filter.mp hm).2
    have hb := (Bool.and_eq_true _ _).mp this
    simpa using hb.1
  · have hm := List.mem_of_mem_take h
    have := (List.mem_filter.mp hm).2
    have hb := (Bool.and_eq_true _ _).mp this
    have : d.full_text.isSome = true := hb.2
    cases hft : d.full_text with
    | none => rw [hft] at this; simp at this
    | some v => simp
  · exact List.length_take_le _ _

/-- Witness for C9's amended theorem at a concrete table. -/
theorem pending_fetch_sound_witness :
    pendingDoc.analysis_status = "pending" ∧ pendingDoc.full_text ≠ none ∧
    (getDocumentsPendingAnalysis 5 [crashedDoc, pendingDoc]).length ≤ 5 :=
  pending_fetch_sound 5 [crashedDoc, pendingDoc] pendingDoc (by decide)

/-- C5 counterexample.  The claim says a document set to `complete` is never
set to `failed` later in the same run.  On the code this fails: if
`updateDocumentAnalysis` succeeds (writing `'complete'`) and a subsequent
persistence call throws (e.g. `insertTriple` with an unparseable
`timestamp` string), the `catch` block sets `'failed'` — trace
`processing, complete, failed`. -/
theorem status_complete_then_failed_cex :
    statusTrace true 1 (some 1) = ["processing", "complete", "failed"] ∧
    (statusTrace true 1 (some 1)).get? 1 = some "complete" ∧
    (statusTrace true 1 (some 1)).get? 2 = some "failed" := by
  decide

/-- C5 (amended).  For every document processed in a single run the status
trace is one of `processing, complete` / `processing, failed` /
`processing, complete, failed`: the status never reverts to `pending`, and
`failed` is never followed by `complete`; but `complete` may be followed by
`failed` when a post-completion persistence step throws. -/
theorem status_trace_shape (extractOk : Bool) (postPersistOps : Nat)
    (failAt : Option Nat) :
    ("pending" ∉ statusTrace extractOk postPersistOps failAt) ∧
    (statusTrace extractOk postPersistOps failAt = ["processing", "complete"] ∨
     statusTrace extractOk postPersistOps failAt = ["processing", "failed"] ∨
     statusTrace extractOk postPersistOps failAt = ["processing", "complete", "failed"]) := by
  unfold statusTrace
  cases extractOk with
  | false => simp
  | true =>
      cases failAt with
      | none => simp
      | some k =>
          cases k with
          | zero => simp
          | succ k' =>
              by_cases hk : k' < postPersistOps
              · rw [if_pos rfl]
                simp [hk]
              · rw [if_pos rfl]
                simp [hk]

theorem upd1_fields (de : List (Nat × Nat)) (rid : Nat) (e : EntityRow) :
    (upd1 de rid e).id = e.id ∧ (upd1 de rid e).canonical_name = e.canonical_name ∧
    (upd1 de rid e).entity_type = e.entity_type := by
  unfold upd1; split <;> exact ⟨rfl, rfl, rfl⟩

theorem upd2_fields (de : List (Nat × Nat)) (l1 : List Nat) (e : EntityRow) :
    (upd2 de l1 e).id = e.id ∧ (upd2 de l1 e).canonical_name = e.canonical_name ∧
    (upd2 de l1 e).entity_type = e.entity_type := by
  unfold upd2; split <;> exact ⟨rfl, rfl, rfl⟩

theorem upd3_fields (e : EntityRow) :
    (upd3 e).id = e.id ∧ (upd3 e).canonical_name = e.canonical_name ∧
    (upd3 e).entity_type = e.entity_type := by
  unfold upd3; split <;> exact ⟨rfl, rfl, rfl⟩

theorem upd1_of_set (de : List (Nat × Nat)) (rid : Nat) (e : EntityRow)
    (h : e.layer ≠ none) : upd1 de rid e = e := by
  unfold upd1; rw [if_neg]; rintro ⟨h1, -, -⟩; exact h h1

theorem upd2_of_set (de : List (Nat × Nat)) (l1 : List Nat) (e : EntityRow)
    (h : e.layer ≠ none) : upd2 de l1 e = e := by
  unfold upd2; rw [if_neg]; rintro ⟨h1, -⟩; exact h h1

theorem upd3_of_set (e : EntityRow) (h : e.layer ≠ none) : upd3 e = e := by
  unfold upd3; rw [if_neg h]

theorem chain_of_set (de : List (Nat × Nat)) (l1 : List Nat) (rid : Nat)
    (a : EntityRow) (h : a.layer ≠ none) :
    upd3 (upd2 de l1 (upd1 de rid a)) = a := by
  rw [upd1_of_set de rid a h, upd2_of_set de l1 a h, upd3_of_set a h]

theorem chain_id (de : List (Nat × Nat)) (l1 : List Nat) (rid : Nat) (a : EntityRow) :
    (upd3 (upd2 de l1 (upd1 de rid a))).id = a.id := by
  rw [(upd3_fields _).1, (upd2_fields _ _ _).1, (upd1_fields _ _ _).1]

theorem upd3_layer_ne_none (e : EntityRow) : (upd3 e).layer ≠ none := by
  unfold upd3
  split
  · simp
  · next h => simpa using h

theorem chain_layer1 (de : List (Nat × Nat)) (l1 : List Nat) (rid : Nat)
    (a : EntityRow) (h : (upd3 (upd2 de l1 (upd1 de rid a))).layer = some 1) :
    a.layer = some 1 ∨
    (a.layer = none ∧ a.id ≠ rid ∧ sharesDoc de a.id rid = true) := by
  by_cases h1 : a.layer = none ∧ a.id ≠ rid ∧ sharesDoc de a.id rid = true
  · exact Or.inr h1
  · have e1 : upd1 de rid a = a := by unfold upd1; rw [if_neg h1]
    rw [e1] at h
    by_cases h2 : a.layer = none ∧ (l1.any (fun i => sharesDoc de a.id i)) = true
    · have e2 : upd2 de l1 a = { a with layer := some 2 } := by
        unfold upd2; rw [if_pos h2]
      rw [e2, upd3_of_set _ (by simp)] at h
      simp at h
    · have e2 : upd2 de l1 a = a := by unfold upd2; rw [if_neg h2]
      rw [e2] at h
      unfold upd3 at h
      split at h
      · simp at h
      · exact Or.inl h

theorem chain_layer2 (de : List (Nat × Nat)) (l1 : List Nat) (rid : Nat)
    (a : EntityRow) (h : (upd3 (upd2 de l1 (upd1 de rid a))).layer = some 2) :
    a.layer = some 2 ∨
    (a.layer = none ∧ (a.id = rid ∨ sharesDoc de a.id rid = false) ∧
      (l1.any (fun i => sharesDoc de a.id i)) = true) := by
  by_cases h1 : a.layer = none ∧ a.id ≠ rid ∧ sharesDoc de a.id rid = true
  · have e1 : upd1 de rid a = { a with layer := some 1 } := by
      unfold upd1; rw [if_pos h1]
    rw [e1, upd2_of_set _ _ _ (by simp), upd3_of_set _ (by simp)] at h
    simp at h
  · have e1 : upd1 de rid a = a := by unfold upd1; rw [if_neg h1]
    rw [e1] at h
    by_cases h2 : a.layer = none ∧ (l1.any (fun i => sharesDoc de a.id i)) = true
    · refine Or.inr ⟨h2.1, ?_, h2.2⟩
      rcases Decidable.not_and_iff_or_not.mp h1 with hna | hrest
      · exact absurd h2.1 hna
      · rcases Decidable.not_and_iff_or_not.mp hrest with hid | hsh
        · exact Or.inl (Decidable.not_not.mp hid)
        · exact Or.inr (Bool.not_eq_true _ ▸ hsh)
    · have e2 : upd2 de l1 a = a := by unfold upd2; rw [if_neg h2]
      rw [e2] at h
      unfold upd3 at h
      split at h
      · simp at h
      · exact Or.inl h

theorem chain_layer0 (de : List (Nat × Nat)) (l1 : List Nat) (rid : Nat)
    (a : EntityRow) (h : (upd3 (upd2 de l1 (upd1 de rid a))).layer = some 0) :
    a.layer = some 0 := by
  by_cases ha : a.layer = none
  · exfalso
    by_cases h1 : a.layer = none ∧ a.id ≠ rid ∧ sharesDoc de a.id rid = true
    · have e1 : upd1 de rid a = { a with layer := some 1 } := by
        unfold upd1; rw [if_pos h1]
      rw [e1, upd2_of_set _ _ _ (by simp), upd3_of_set _ (by simp)] at h
      simp at h
    · have e1 : upd1 de rid a = a := by unfold upd1; rw [if_neg h1]
      rw [e1] at h
      by_cases h2 : a.layer = none ∧ (l1.any (fun i => sharesDoc de a.id i)) = true
      · have e2 : upd2 de l1 a = { a with layer := some 2 } := by
          unfold upd2; rw [if_pos h2]
        rw [e2, upd3_of_set _ (by simp)] at h
        simp at h
      · have e2 : upd2 de l1 a = a := by unfold upd2; rw [if_neg h2]
        rw [e2] at h
        unfold upd3 at h
        rw [if_pos ha] at h
        simp at h
  · rw [chain_of_set de l1 rid a ha] at h
    exact h

theorem chain_layer_cases (de : List (Nat × Nat)) (l1 : List Nat) (rid : Nat)
    (a : EntityRow) :
    (upd3 (upd2 de l1 (upd1 de rid a))).layer = a.layer ∨
    (upd3 (upd2 de l1 (upd1 de rid a))).layer = some 1 ∨
    (upd3 (upd2 de l1 (upd1 de rid a))).layer = some 2 ∨
    (upd3 (upd2 de l1 (upd1 de rid a))).layer = some 3 := by
  by_cases h1 : a.layer = none ∧ a.id ≠ rid ∧ sharesDoc de a.id rid = true
  · have e1 : upd1 de rid a = { a with layer := some 1 } := by
      unfold upd1; rw [if_pos h1]
    rw [e1, upd2_of_set _ _ _ (by simp), upd3_of_set _ (by simp)]
    simp
  · have e1 : upd1 de rid a = a := by unfold upd1; rw [if_neg h1]
    rw [e1]
    by_cases h2 : a.layer = none ∧ (l1.any (fun i => sharesDoc de a.id i)) = true
    · have e2 : upd2 de l1 a = { a with layer := some 2 } := by
        unfold upd2; rw [if_pos h2]
      rw [e2, upd3_of_set _ (by simp)]
      simp
    · have e2 : upd2 de l1 a = a := by unfold upd2; rw [if_neg h2]
      rw [e2]
      unfold upd3
      split
      · simp
      · exact Or.inl rfl

theorem calc_entities_eq (s : GraphState) (root : EntityRow)
    (hroot : s.entities.find? isRootRow = some root) :
    (calculateEntityLayers s).entities =
      s.entities.map (fun a =>
        upd3 (upd2 s.document_entities
          (layer1Ids (s.entities.map (upd1 s.document_entities root.id)))
          (upd1 s.document_entities root.id a))) ∧
    (calculateEntityLayers s).document_entities = s.document_entities := by
  unfold calculateEntityLayers pass3 pass2 pass1
  rw [hroot]
  simp [List.map_map, Function.comp]

theorem layer1Ids_mem (es : List EntityRow) (i : Nat) (h : i ∈ layer1Ids es) :
    ∃ r ∈ es, r.layer = some 1 ∧ r.id = i := by
  unfold layer1Ids at h
  rw [List.mem_map] at h
  obtain ⟨r, hr, hi⟩ := h
  rw [List.mem_filter] at hr
  exact ⟨r, hr.1, by simpa using hr.2, hi⟩

/-- C3.  Starting from a state in which only the (unique) root entity
carries a layer (layer 0), a full run of `calculateEntityLayers` is a valid
depth-capped BFS labeling of the shared-document co-occurrence graph:
the root keeps layer 0; every layer-1 entity shares a document with the
root; every layer-2 entity shares a document with some layer-1 entity and
with no layer-0 entity; every entity ends with a layer in {0, 1, 2, 3}
(none is left NULL); only the root ends at layer 0; and hence every
non-root entity ends in layer 1, 2 or 3 — so every remaining entity (not
the root, not labeled 1 or 2) ends in exactly layer 3. -/
theorem calculateEntityLayers_bfs (s : GraphState) (root : EntityRow)
    (hroot : s.entities.find? isRootRow = some root)
    (hlayer0 : root.layer = some 0)
    (honly : ∀ e ∈ s.entities, e.layer ≠ none → e = root)
    (hid : ∀ e ∈ s.entities, e.id = root.id → e = root) :
    root ∈ (calculateEntityLayers s).entities ∧
    (∀ e ∈ (calculateEntityLayers s).entities, e.layer = some 1 →
      sharesDoc s.document_entities e.id root.id = true ∧ e.id ≠ root.id) ∧
    (∀ e ∈ (calculateEntityLayers s).entities, e.layer = some 2 →
      (∃ e1 ∈ (calculateEntityLayers s).entities, e1.layer = some 1 ∧
        sharesDoc s.document_entities e.id e1.id = true) ∧
      (∀ e0 ∈ (calculateEntityLayers s).entities, e0.layer = some 0 →
        sharesDoc s.document_entities e.id e0.id = false)) ∧
    (∀ e ∈ (calculateEntityLayers s).entities,
      e.layer = some 0 ∨ e.layer = some 1 ∨ e.layer = some 2 ∨ e.layer = some 3) ∧
    (∀ e ∈ (calculateEntityLayers s).entities, e.layer = some 0 → e = root) ∧
    (∀ e ∈ (calculateEntityLayers s).entities, e ≠ root →
      e.layer = some 1 ∨ e.layer = some 2 ∨ e.layer = some 3) := by
  obtain ⟨hents, -⟩ := calc_entities_eq s root hroot
  set de := s.document_entities with hde
  set l1 := layer1Ids (s.entities.map (upd1 de root.id)) with hl1
  have hrootmem : root ∈ s.entities := List.mem_of_find?_eq_some hroot
  have hrootset : root.layer ≠ none := by rw [hlayer0]; simp
  have hd : ∀ e ∈ (calculateEntityLayers s).entities,
      e.layer = some 0 ∨ e.layer = some 1 ∨ e.layer = some 2 ∨ e.layer = some 3 := by
    intro e he
    rw [hents, List.mem_map] at he
    obtain ⟨a, ha, hea⟩ := he
    rw [← hea]
    rcases chain_layer_cases de l1 root.id a with heq | h
    · rw [heq]
      by_cases hset : a.layer = none
      · exfalso
        have := upd3_layer_ne_none (upd2 de l1 (upd1 de root.id a))
        rw [heq] at this
        exact this hset
      · have := honly a ha hset
        rw [this, hlayer0]
        exact Or.inl rfl
    · exact Or.inr h
  have he0 : ∀ e ∈ (calculateEntityLayers s).entities, e.layer = some 0 → e = root := by
    intro e he hl
    rw [hents, List.mem_map] at he
    obtain ⟨a, ha, hea⟩ := he
    rw [← hea] at hl
    have ha0 : a.layer = some 0 := chain_layer0 de l1 root.id a hl
    have har : a = root := honly a ha (by rw [ha0]; simp)
    rw [← hea, har, chain_of_set de l1 root.id root hrootset]
  refine ⟨?_, ?_, ?_, hd, he0, ?_⟩
  · rw [hents, List.mem_map]
    exact ⟨root, hrootmem, chain_of_set de l1 root.id root hrootset⟩
  · intro e he hl
    rw [hents, List.mem_map] at he
    obtain ⟨a, ha, hea⟩ := he
    rw [← hea] at hl
    rcases chain_layer1 de l1 root.id a hl with h1 | ⟨-, hne, hsh⟩
    · exact absurd hlayer0 (by
        have := honly a ha (by rw [h1]; simp)
        rw [this] at h1
        rw [h1]
        simp)
    · constructor
      · rw [← hea, chain_id]
        exact hsh
      · rw [← hea, chain_id]
        exact hne
  · intro e he hl
    rw [hents, List.mem_map] at he
    obtain ⟨a, ha, hea⟩ := he
    rw [← hea] at hl
    rcases chain_layer2 de l1 root.id a hl with h2 | ⟨hnone, hnoroot, hany⟩
    · exact absurd hlayer0 (by
        have := honly a ha (by rw [h2]; simp)
        rw [this] at h2
        rw [h2]
        simp)
    · constructor
      · rw [List.any_eq_true] at hany
        obtain ⟨i, hi, hish⟩ := hany
        obtain ⟨r1, hr1, hr1l, hr1i⟩ := layer1Ids_mem _ i hi
        rw [List.mem_map] at hr1
        obtain ⟨a1, ha1, ha1r⟩ := hr1
        refine ⟨r1, ?_, hr1l, ?_⟩
        · rw [hents, List.mem_map]
          refine ⟨a1, ha1, ?_⟩
          rw [ha1r,
            upd2_of_set de l1 r1 (by rw [hr1l]; simp),
            upd3_of_set r1 (by rw [hr1l]; simp)]
        · rw [← hea, chain_id, hr1i]
          exact hish
      · intro e0 he0 he0l
        rw [hents, List.mem_map] at he0
        obtain ⟨a0, ha0, he0a⟩ := he0
        rw [← he0a] at he0l
        have ha0l : a0.layer = some 0 := chain_layer0 de l1 root.id a0 he0l
        have ha0root : a0 = root := honly a0 ha0 (by rw [ha0l]; simp)
        rcases hnoroot with hidr | hshf
        · exfalso
          have haroot := hid a ha hidr
          rw [haroot] at hnone
          rw [hnone] at hlayer0
          exact Option.noConfusion hlayer0
        · rw [← hea, ← he0a, chain_id, chain_id, ha0root]
          exact hshf
  · intro e he hne
    rcases hd e he with h0 | h
    · exact absurd (he0 e he h0) hne
    · exact h

/-- Witness for C3 at the spec's own scenario (root, A sharing a document
with the root, B sharing one with A only, C isolated): the four
hypotheses hold concretely, the root survives the run, and the isolated
entity C — which ends the run as the concrete row with layer 3 — is pinned
to layers {1, 2, 3} by the non-root conjunct. -/
theorem calculateEntityLayers_bfs_witness :
    rootEntity ∈ (calculateEntityLayers exGraph).entities ∧
    ((⟨3, "Carol Clark", "person", [], none, some 3⟩ : EntityRow).layer = some 1 ∨
     (⟨3, "Carol Clark", "person", [], none, some 3⟩ : EntityRow).layer = some 2 ∨
     (⟨3, "Carol Clark", "person", [], none, some 3⟩ : EntityRow).layer = some 3) := by
  have h := calculateEntityLayers_bfs exGraph rootEntity (by decide) (by decide)
    (by decide) (by decide)
  exact ⟨h.1, h.2.2.2.2.2 ⟨3, "Carol Clark", "person", [], none, some 3⟩
    (by decide) (by decide)⟩

theorem list_map_id_of {α : Type _} {f : α → α} {l : List α}
    (h : ∀ x ∈ l, f x = x) : l.map f = l := by
  induction l with
  | nil => rfl
  | cons x xs ih =>
      rw [List.map_cons, h x (List.mem_cons_self x xs),
        ih (fun y hy => h y (List.mem_cons_of_mem x hy))]

theorem calc_fix_of_all_set (s : GraphState)
    (hall : ∀ e ∈ s.entities, e.layer ≠ none) :
    calculateEntityLayers s = s := by
  obtain ⟨ents, de⟩ := s
  have h1 : pass1 ⟨ents, de⟩ = ⟨ents, de⟩ := by
    unfold pass1
    cases hf : List.find? isRootRow ents with
    | none => rfl
    | some root =>
        simp only
        rw [list_map_id_of (fun x hx => upd1_of_set de root.id x (hall x hx))]
  have h2 : pass2 ⟨ents, de⟩ = ⟨ents, de⟩ := by
    unfold pass2
    simp only
    rw [list_map_id_of (fun x hx => upd2_of_set de (layer1Ids ents) x (hall x hx))]
  have h3 : pass3 ⟨ents, de⟩ = ⟨ents, de⟩ := by
    unfold pass3
    simp only
    rw [list_map_id_of (fun x hx => upd3_of_set x (hall x hx))]
  unfold calculateEntityLayers
  rw [h1, h2, h3]

theorem calc_all_set (s : GraphState) :
    ∀ e ∈ (calculateEntityLayers s).entities, e.layer ≠ none := by
  intro e he
  unfold calculateEntityLayers pass3 at he
  simp only [List.mem_map] at he
  obtain ⟨a, -, ha⟩ := he
  rw [← ha]
  exact upd3_layer_ne_none a

/-- C8.  Layer assignment is first-assignment-wins and idempotent: a full
run preserves every row's id, name and type, never changes an
already-assigned layer (each SQL pass filters on `layer IS NULL`), and a
second run on the unchanged co-occurrence graph is the identity. -/
theorem calculateEntityLayers_first_wins (s : GraphState) :
    List.Forall₂ (fun a b => b.id = a.id ∧ b.canonical_name = a.canonical_name ∧
      b.entity_type = a.entity_type ∧ (a.layer = none ∨ b.layer = a.layer))
      s.entities (calculateEntityLayers s).entities ∧
    calculateEntityLayers (calculateEntityLayers s) = calculateEntityLayers s := by
  constructor
  · have hpt : ∀ (g : EntityRow → EntityRow),
        (∀ a, (g a).id = a.id ∧ (g a).canonical_name = a.canonical_name ∧
          (g a).entity_type = a.entity_type) →
        (∀ a, a.layer ≠ none → g a = a) →
        ∀ l : List EntityRow,
          List.Forall₂ (fun a b => b.id = a.id ∧
            b.canonical_name = a.canonical_name ∧
            b.entity_type = a.entity_type ∧ (a.layer = none ∨ b.layer = a.layer))
            l (l.map g) := by
      intro g hfields hfix l
      rw [List.forall₂_map_right_iff]
      rw [List.forall₂_same]
      intro a ha
      refine ⟨(hfields a).1, (hfields a).2.1, (hfields a).2.2, ?_⟩
      by_cases hset : a.layer = none
      · exact Or.inl hset
      · rw [hfix a hset]
        exact Or.inr rfl
    unfold calculateEntityLayers pass3 pass2 pass1
    cases hf : s.entities.find? isRootRow with
    | some root =>
        simp only [List.map_map]
        exact hpt _
          (fun a => by
            constructor
            · rw [Function.comp_apply, Function.comp_apply, (upd3_fields _).1,
                (upd2_fields _ _ _).1, (upd1_fields _ _ _).1]
            constructor
            · rw [Function.comp_apply, Function.comp_apply, (upd3_fields _).2.1,
                (upd2_fields _ _ _).2.1, (upd1_fields _ _ _).2.1]
            · rw [Function.comp_apply, Function.comp_apply, (upd3_fields _).2.2,
                (upd2_fields _ _ _).2.2, (upd1_fields _ _ _).2.2])
          (fun a ha => by
            rw [Function.comp_apply, Function.comp_apply,
              upd1_of_set _ _ _ ha, upd2_of_set _ _ _ ha, upd3_of_set _ ha])
          s.entities
    | none =>
        simp only [List.map_map]
        exact hpt _
          (fun a => by
            constructor
            · rw [Function.comp_apply, (upd3_fields _).1, (upd2_fields _ _ _).1]
            constructor
            · rw [Function.comp_apply, (upd3_fields _).2.1, (upd2_fields _ _ _).2.1]
            · rw [Function.comp_apply, (upd3_fields _).2.2, (upd2_fields _ _ _).2.2])
          (fun a ha => by
            rw [Function.comp_apply, upd2_of_set _ _ _ ha, upd3_of_set _ ha])
          s.entities
  · exact calc_fix_of_all_set _ (calc_all_set s)

/-- C7 counterexample.  The claim says the sent text carries the truncation
marker if and only if the original exceeds the budget, and that otherwise
"the marker is absent".  A document whose own text is exactly the marker
string is under the budget, is sent unchanged, and still carries the
marker — the "only if"/"absent" direction fails. -/
theorem truncation_marker_cex :
    truncateForExtraction truncationMarker = truncationMarker ∧
    endsWithMarker (truncateForExtraction truncationMarker) = true ∧
    ¬ maxExtractionChars < truncationMarker.length := by
  refine ⟨?_, ?_, by decide⟩
  · decide
  · decide

/-- C7 (amended).  For any document text that does not itself end with the
marker: the text sent for extraction ends with the truncation marker iff
the original text exceeds the 100000-character budget; when it does, the
sent text is the 100000-character prefix with the marker appended, and
otherwise the text is sent unchanged. -/
theorem truncation_amended (text : String) (h : endsWithMarker text = false) :
    (endsWithMarker (truncateForExtraction text) = true ↔
      maxExtractionChars < text.length) ∧
    (¬ maxExtractionChars < text.length → truncateForExtraction text = text) ∧
    (maxExtractionChars < text.length →
      truncateForExtraction text = text.take maxExtractionChars ++ truncationMarker) := by
  by_cases hc : maxExtractionChars < text.length
  · have htr : truncateForExtraction text =
        text.take maxExtractionChars ++ truncationMarker := by
      unfold truncateForExtraction
      rw [if_pos hc]
    refine ⟨?_, fun hn => absurd hc hn, fun _ => htr⟩
    constructor
    · intro _; exact hc
    · intro _
      rw [htr]
      unfold endsWithMarker
      rw [String.data_append]
      simp [List.isSuffixOf]
  · have htr : truncateForExtraction text = text := by
      unfold truncateForExtraction
      rw [if_neg hc]
    refine ⟨?_, fun _ => htr, fun hy => absurd hy hc⟩
    rw [htr]
    constructor
    · intro hmk
      rw [h] at hmk
      exact absurd hmk (by simp)
    · intro hy
      exact absurd hy hc

/-- Witness for C7's amended theorem at a short marker-free text. -/
theorem truncation_amended_witness :
    endsWithMarker (truncateForExtraction "Flight log, 1995.") = true ↔
      maxExtractionChars < ("Flight log, 1995." : String).length :=
  (truncation_amended "Flight log, 1995." (by decide)).1

theorem processBatchModel_length (db : EntitiesTable) (ts : List String) :
    (processBatchModel db ts).2.length = ts.length := by
  induction ts generalizing db with
  | nil => rfl
  | cons t ts ih => simp [processBatchModel, ih]

/-- C6.  If the extraction response text does not contain parseable JSON
conforming to the `DocumentAnalysis` schema (the response pipeline throws),
the document ends `failed` with a non-empty error string, no entity rows,
document links or triples are written for it (the entity table is
untouched), and a batch containing it still produces an outcome for every
document. -/
theorem malformed_response_isolated (respText : String) (e : String)
    (h : parseExtractionResponse respText = Except.error e) :
    e ≠ "" ∧
    (∀ db : EntitiesTable,
      processDocumentModel db respText =
        { status := "failed", error_message := some e,
          writes := ⟨[], [], 0⟩, table := db }) ∧
    (∀ (db : EntitiesTable) (ts : List String),
      (processBatchModel db (respText :: ts)).2.length = ts.length + 1) := by
  refine ⟨?_, ?_, ?_⟩
  · have he : e = noJsonError ∨ e = jsonSyntaxError ∨ e = zodError := by
      unfold parseExtractionResponse at h
      split at h
      · exact Or.inl (by injection h with h2; exact h2.symm)
      · split at h
        · exact Or.inr (Or.inl (by injection h with h2; exact h2.symm))
        · split at h
          · exact Or.inr (Or.inr (by injection h with h2; exact h2.symm))
          · exact absurd h (by simp)
    rcases he with h1 | h1 | h1 <;> (rw [h1]; decide)
  · intro db
    unfold processDocumentModel
    rw [h]
  · intro db ts
    simp [processBatchModel, processBatchModel_length]

/-- Witness for C6 at a plain refusal text (no brace in the response). -/
theorem malformed_response_isolated_witness :
    noJsonError ≠ "" ∧
    (processDocumentModel emptyEntities "I cannot analyze this document.").status
      = "failed" := by
  have h := malformed_response_isolated "I cannot analyze this document."
    noJsonError (by rfl)
  refine ⟨h.1, ?_⟩
  rw [h.2.1 emptyEntities]

/-- C10.  Within one document's processing, triple-endpoint identity is
resolved by the lowercased surface name alone, ignoring the endpoint's
declared type: when the lowercased name is already in `entityIdMap`, the
existing id is reused, the entity table and map are unchanged, and no
upsert is issued — for every declared type. -/
theorem resolveEndpoint_reuses_existing (db : EntitiesTable) (m : EntityIdMap)
    (name : String) (i : Nat) (h : mapGet m (lowerStr name) = some i) (ty : String) :
    resolveEndpoint db m name ty = (i, db, m, []) := by
  unfold resolveEndpoint
  rw [h]

/-- Witness for C10: "J. Smith" hits the map entry recorded for
"j. smith" even when the endpoint declares type `organization`. -/
theorem resolveEndpoint_reuses_existing_witness :
    resolveEndpoint emptyEntities [("j. smith", 7)] "J. Smith" "organization" =
      (7, emptyEntities, [("j. smith", 7)], []) :=
  resolveEndpoint_reuses_existing emptyEntities [("j. smith", 7)] "J. Smith" 7
    (by decide) "organization"

end EpsteinDB
